import Mathlib

/-!
# Concent — Bankster and MiddleMan relay, verified embedding

A shallow embedding of the deposit-claim operations in
`concent_api/core/payments/bankster.py`, of the payment service wrapper and
SCI backend in `concent_api/core/payments/service.py` and
`concent_api/core/payments/sci_backend.py`, and of the MiddleMan relay
coroutine bodies in `concent_api/middleman/queue_operations.py`.

Database rows become explicit lists of records, oracle (SCI) calls become
explicit parameters or oracle records of functions, and the `assert`
preconditions of the Python functions become hypotheses of the theorems.
Each operation returns its result together with the resulting table of
`DepositClaim` rows, so that insertion, mutation and deletion of rows are
visible in the theorems.
-/

/-- The `ConcentUseCase` enumeration from `common/constants.py`. -/
inductive ConcentUseCase where
  | FORCED_ACCEPTANCE
  | ADDITIONAL_VERIFICATION
  | FORCED_PAYMENT
  | FORCED_TASK_RESULT
  deriving DecidableEq, Repr

/-- One `DepositClaim` row (`core/models.py`).  `payer_deposit_account` is
identified by its Ethereum address, which keys the `DepositAccount` row; `id`
models the database primary key.  `amount` is kept as an integer exactly as in
the model, where the positivity constraint is a validation rule
(`full_clean`), not part of the type. -/
structure DepositClaim where
  id : Nat
  subtask_id : Option String
  payee_ethereum_address : String
  amount : Int
  concent_use_case : ConcentUseCase
  payer_deposit_account : String
  tx_hash : Option String
  closure_time : Option Nat
  deriving DecidableEq, Repr

/-- The aggregation used throughout `bankster.py`:
`DepositClaim.objects.filter(payer_deposit_account=...).aggregate(Coalesce(Sum(amount), 0))`. -/
def sum_of_existing_claims (payer : String) (claims : List DepositClaim) : Int :=
  ((claims.filter (fun c => decide (c.payer_deposit_account = payer))).map
    (fun c => c.amount)).sum

/-- The settings consulted by `claim_deposit`:
`settings.ADDITIONAL_VERIFICATION_COST` and the payee address derived from
`settings.CONCENT_ETHEREUM_PUBLIC_KEY`. -/
structure BanksterSettings where
  ADDITIONAL_VERIFICATION_COST : Int
  CONCENT_ETHEREUM_ADDRESS : String

/-- Outcome of `claim_deposit`: either the pair of optional claims together
with the resulting claim table, or the `TooSmallProviderDeposit` exception
(which leaves a claim table behind after the rollback delete). -/
inductive ClaimDepositResult where
  | success (claim_against_requestor claim_against_provider : Option DepositClaim)
      (claims : List DepositClaim)
  | tooSmallProviderDeposit (claims : List DepositClaim)
  deriving DecidableEq, Repr

/-- Embeds `bankster.claim_deposit`.  `requestor_deposit` and
`provider_deposit` are the oracle answers of `service.get_deposit_value` for
the two addresses; `claims` is the current `DepositClaim` table; `next_id` is
the primary key the database would assign to the next inserted row (the
second insertion of the call gets `next_id + 1`).  The Python `assert`
preconditions (`subtask_cost > 0`, distinct well-formed addresses, use case
in the allowed pair) are not needed for the definition to be total and appear
as hypotheses of the theorems about it. -/
def claim_deposit
    (settings : BanksterSettings)
    (subtask_id : String)
    (concent_use_case : ConcentUseCase)
    (requestor_ethereum_address provider_ethereum_address : String)
    (subtask_cost : Int)
    (requestor_deposit provider_deposit : Int)
    (claims : List DepositClaim)
    (next_id : Nat) :
    ClaimDepositResult :=
  let is_claim_against_provider : Bool :=
    decide (concent_use_case = ConcentUseCase.ADDITIONAL_VERIFICATION) &&
    decide (settings.ADDITIONAL_VERIFICATION_COST > 0)
  let aggregated_claims_against_requestor :=
    sum_of_existing_claims requestor_ethereum_address claims
  if requestor_deposit ≤ aggregated_claims_against_requestor then
    .success none none claims
  else
    let claim_against_requestor : DepositClaim :=
      { id := next_id
        subtask_id := some subtask_id
        payee_ethereum_address := provider_ethereum_address
        amount := subtask_cost
        concent_use_case := concent_use_case
        payer_deposit_account := requestor_ethereum_address
        tx_hash := none
        closure_time := none }
    let claims_after_requestor := claims ++ [claim_against_requestor]
    if is_claim_against_provider then
      let aggregated_claims_against_provider :=
        sum_of_existing_claims provider_ethereum_address claims_after_requestor
      if provider_deposit ≤
          aggregated_claims_against_provider + settings.ADDITIONAL_VERIFICATION_COST then
        .tooSmallProviderDeposit
          (claims_after_requestor.filter (fun c => decide (c.id ≠ claim_against_requestor.id)))
      else
        let claim_against_provider : DepositClaim :=
          { id := next_id + 1
            subtask_id := some subtask_id
            payee_ethereum_address := settings.CONCENT_ETHEREUM_ADDRESS
            amount := settings.ADDITIONAL_VERIFICATION_COST
            concent_use_case := concent_use_case
            payer_deposit_account := provider_ethereum_address
            tx_hash := none
            closure_time := none }
        .success (some claim_against_requestor) (some claim_against_provider)
          (claims_after_requestor ++ [claim_against_provider])
    else
      .success (some claim_against_requestor) none claims_after_requestor

/-- Modelled from the spec: `core/utils.py` (`adjust_transaction_hash`) is not
under `src/`.  The spec describes the normalization as left-padding the
returned transaction hash to the fixed hash length (64 hexadecimal digits of
a 32-byte hash). -/
def TX_HASH_LENGTH : Nat := 64

/-- Modelled from the spec: left-pad the hash with zeros to `TX_HASH_LENGTH`. -/
def adjust_transaction_hash (h : String) : String :=
  if h.length < TX_HASH_LENGTH then
    String.mk (List.replicate (TX_HASH_LENGTH - h.length) '0') ++ h
  else
    h

/-- The part of a `Subtask` row consulted by `finalize_payment`: the Ethereum
addresses found in its deserialized canonical `task_to_compute` message. -/
structure SubtaskPaymentInfo where
  requestor_ethereum_address : String
  provider_ethereum_address : String
  deriving DecidableEq, Repr

/-- Oracle view of the SCI payment calls made by `finalize_payment`, as a
function of the value passed (all other arguments of one call are fixed by
the claim being processed); each returns the transaction hash. -/
structure PaymentOracle where
  force_subtask_payment : Int → String
  cover_additional_verification_cost : Int → String

/-- The use-case dispatch of `finalize_payment` (lines 205-232 of
`bankster.py`): which SCI call is made and with which value.  `none` models
the paths on which no transaction hash is produced: `ADDITIONAL_VERIFICATION`
with no matching `Subtask` row (the Python local `ethereum_transaction_hash`
is then never assigned) and the two `assert False` branches. -/
def finalize_dispatch
    (oracle : PaymentOracle)
    (deposit_claim : DepositClaim)
    (subtask : Option SubtaskPaymentInfo)
    (value : Int) :
    Option String :=
  match deposit_claim.concent_use_case with
  | ConcentUseCase.FORCED_ACCEPTANCE => some (oracle.force_subtask_payment value)
  | ConcentUseCase.ADDITIONAL_VERIFICATION =>
    match subtask with
    | none => none
    | some task_to_compute =>
      if task_to_compute.requestor_ethereum_address = deposit_claim.payer_deposit_account then
        some (oracle.force_subtask_payment value)
      else if task_to_compute.provider_ethereum_address = deposit_claim.payer_deposit_account then
        some (oracle.cover_additional_verification_cost value)
      else
        none
  | _ => none

/-- Outcome of `finalize_payment`: the returned transaction hash with the new
claim table, the deleted-claim path returning `None`, or an aborted run
(assertion failure / unassigned local). -/
inductive FinalizePaymentResult where
  | paid (tx_hash : String) (claims : List DepositClaim)
  | deleted (claims : List DepositClaim)
  | aborted (claims : List DepositClaim)
  deriving DecidableEq, Repr

/-- The aggregation of `finalize_payment` (lines 183-189 of `bankster.py`):
the sum of all claims with the same payer, excluding the claim being
processed (`.exclude(pk=deposit_claim.pk)`). -/
def sum_of_other_claims (deposit_claim : DepositClaim) (claims : List DepositClaim) : Int :=
  (((claims.filter (fun c => decide (c.payer_deposit_account = deposit_claim.payer_deposit_account))).filter
    (fun c => decide (c.id ≠ deposit_claim.id))).map (fun c => c.amount)).sum

/-- Embeds `bankster.finalize_payment`.  `available_funds` is the oracle
answer of `service.get_deposit_value` for the payer's address; `subtask` is
the result of the `Subtask` lookup for the claim's `subtask_id`; `claims` is
the current `DepositClaim` table, in which `deposit_claim` is a row.  The
precondition `deposit_claim.tx_hash is None` is asserted by the Python code
and appears as a hypothesis of the theorems. -/
def finalize_payment
    (oracle : PaymentOracle)
    (deposit_claim : DepositClaim)
    (subtask : Option SubtaskPaymentInfo)
    (available_funds : Int)
    (claims : List DepositClaim) :
    FinalizePaymentResult :=
  let aggregated_client_claims := sum_of_other_claims deposit_claim claims
  let available_funds_without_claims := available_funds - aggregated_client_claims
  if available_funds_without_claims ≤ 0 then
    .deleted (claims.filter (fun c => decide (c.id ≠ deposit_claim.id)))
  else
    let new_amount :=
      if available_funds_without_claims < deposit_claim.amount then
        available_funds_without_claims
      else
        deposit_claim.amount
    let clamped_claim := { deposit_claim with amount := new_amount }
    match finalize_dispatch oracle clamped_claim subtask new_amount with
    | none => .aborted claims
    | some ethereum_transaction_hash =>
      let adjusted := adjust_transaction_hash ethereum_transaction_hash
      let final_claim := { clamped_claim with tx_hash := some adjusted }
      .paid adjusted
        (claims.map (fun c => if c.id = deposit_claim.id then final_claim else c))

/-- One `SubtaskResultsAccepted` message as consumed by
`settle_overdue_acceptances`: its `payment_ts` and the price of its
`task_to_compute`. -/
structure Acceptance where
  payment_ts : Nat
  price : Int
  deriving DecidableEq, Repr

/-- One payment event returned by `service.get_list_of_payments`
(`BatchTransferEvent` or `ForcedPaymentEvent`); only `amount` is consumed by
the settlement arithmetic. -/
structure PaymentEvent where
  amount : Int
  deriving DecidableEq, Repr

/-- Embeds `bankster.sum_payments`. -/
def sum_payments (payments : List PaymentEvent) : Int :=
  (payments.map (fun item => item.amount)).sum

/-- Embeds `bankster.sum_subtask_price`. -/
def sum_subtask_price (subtask_results_accepted_list : List Acceptance) : Int :=
  (subtask_results_accepted_list.map (fun a => a.price)).sum

/-- Embeds `bankster.get_provider_payment_info`: `(amount_paid, amount_pending)`. -/
def get_provider_payment_info
    (list_of_forced_payments list_of_payments : List PaymentEvent)
    (subtask_results_accepted_list : List Acceptance) :
    Int × Int :=
  let force_payments_price := sum_payments list_of_forced_payments
  let payments_price := sum_payments list_of_payments
  let subtasks_price := sum_subtask_price subtask_results_accepted_list
  let amount_paid := payments_price + force_payments_price
  let amount_pending := subtasks_price - amount_paid
  (amount_paid, amount_pending)

/-- The Python `min(a.payment_ts for a in acceptances)` over a non-empty
list, presented as head plus tail. -/
def oldest_payment_ts (a : Acceptance) (rest : List Acceptance) : Nat :=
  rest.foldl (fun m x => Nat.min m x.payment_ts) a.payment_ts

/-- The Python `max(a.payment_ts for a in acceptances)` over a non-empty
list, presented as head plus tail. -/
def youngest_payment_ts (a : Acceptance) (rest : List Acceptance) : Nat :=
  rest.foldl (fun m x => Nat.max m x.payment_ts) a.payment_ts

/-- Outcome of `settle_overdue_acceptances`: the new claim with the resulting
table, the `None` returns, or an aborted run (empty acceptance list makes the
Python `min()` raise; a failed timestamp validation raises its typed error;
a negative aggregate fails the `assert`). -/
inductive SettleResult where
  | settled (claim_against_requestor : DepositClaim) (claims : List DepositClaim)
  | noClaim (claims : List DepositClaim)
  | aborted (claims : List DepositClaim)
  deriving DecidableEq, Repr

/-- Embeds `bankster.settle_overdue_acceptances`.  `requestor_deposit_value`
is the oracle answer of `service.get_deposit_value`;
`list_of_transactions` and `list_of_forced_payments` are the two
`service.get_list_of_payments` answers (BATCH and FORCE);
`validation_ok` is the outcome of `validate_list_of_transaction_timestamp`
(`core/validation.py`, not under `src/`; per the spec it either passes or
fails the settlement with a typed error); `make_force_payment_returned_hash`
gives the transaction hash returned by
`service.make_force_payment_to_provider` for the value and closure time
passed — the backend module that the service wrapper loads dynamically via
`settings.PAYMENT_BACKEND` is treated as the spec's oracle contract
`force_payment(...) → tx_hash` here; `next_id` is the primary key assigned to
the inserted row. -/
def settle_overdue_acceptances
    (requestor_ethereum_address provider_ethereum_address : String)
    (acceptances : List Acceptance)
    (requestor_deposit_value : Int)
    (claims : List DepositClaim)
    (list_of_transactions list_of_forced_payments : List PaymentEvent)
    (validation_ok : Bool)
    (make_force_payment_returned_hash : Int → Nat → String)
    (next_id : Nat) :
    SettleResult :=
  let sum_of_existing_requestor_claims :=
    sum_of_existing_claims requestor_ethereum_address claims
  if ¬ (sum_of_existing_requestor_claims ≥ 0) then
    .aborted claims
  else if requestor_deposit_value ≤ sum_of_existing_requestor_claims then
    .noClaim claims
  else
    match acceptances with
    | [] => .aborted claims
    | a :: rest =>
      if ¬ validation_ok then
        .aborted claims
      else
        let (_amount_paid, amount_pending) :=
          get_provider_payment_info list_of_forced_payments list_of_transactions (a :: rest)
        let requestor_payable_amount :=
          min amount_pending (requestor_deposit_value - sum_of_existing_requestor_claims)
        if requestor_payable_amount ≤ 0 then
          .noClaim claims
        else
          let youngest := youngest_payment_ts a rest
          let transaction_hash :=
            adjust_transaction_hash (make_force_payment_returned_hash requestor_payable_amount youngest)
          let claim_against_requestor : DepositClaim :=
            { id := next_id
              subtask_id := none
              payee_ethereum_address := provider_ethereum_address
              amount := requestor_payable_amount
              concent_use_case := ConcentUseCase.FORCED_PAYMENT
              payer_deposit_account := requestor_ethereum_address
              tx_hash := some transaction_hash
              closure_time := some youngest }
          .settled claim_against_requestor (claims ++ [claim_against_requestor])

/-- Embeds `bankster.discard_claim`: returns the `claim_removed` flag and the
resulting claim table. -/
def discard_claim (deposit_claim : DepositClaim) (claims : List DepositClaim) :
    Bool × List DepositClaim :=
  match deposit_claim.tx_hash with
  | none => (false, claims)
  | some _ => (true, claims.filter (fun c => decide (c.id ≠ deposit_claim.id)))

/-- The side effect of `sci_backend.make_force_payment_to_provider`: the
`ConcentRPC().force_payment(...)` call it issues. -/
structure ForcePaymentCall where
  requestor_address : String
  provider_address : String
  value : Int
  closure_time : Nat
  deriving DecidableEq, Repr

/-- Embeds `sci_backend.make_force_payment_to_provider`
(`core/payments/sci_backend.py`, lines 48-72).  `requestor_account_balance`
is the `ConcentRPC().get_deposit_value(requestor_eth_address)` answer.  The
function clamps `value` to the balance, issues the `force_payment` RPC call
(first component), and falls off the end of the function body — there is no
`return` statement, so its Python return value is `None` (second
component). -/
def make_force_payment_to_provider
    (requestor_account_balance : Int)
    (requestor_eth_address provider_eth_address : String)
    (value : Int)
    (payment_ts : Nat) :
    ForcePaymentCall × Option String :=
  let clamped_value :=
    if requestor_account_balance < value then requestor_account_balance else value
  ({ requestor_address := requestor_eth_address
     provider_address := provider_eth_address
     value := clamped_value
     closure_time := payment_ts },
   none)

/-- Embeds the `current_time` assertion of `sci_backend.get_list_of_payments`
(`core/payments/sci_backend.py`, line 24):
`isinstance(current_time, int) and current_time > 0`.  The Python value
`None` is not an `int`, so the assertion predicate is false on it. -/
def sci_backend_current_time_assertion (current_time : Option Int) : Bool :=
  match current_time with
  | some t => decide (0 < t)
  | none => false

/-- Embeds the `current_time` plumbing of the service wrapper
`core/payments/service.py` `get_list_of_payments`: the wrapper's
`current_time` parameter defaults to `None` and is forwarded unchanged to
the backend as a keyword argument. -/
def service_forwarded_current_time (current_time : Option Int) : Option Int :=
  current_time

/-- The `current_time` value that reaches the backend on the calls made by
`bankster.settle_overdue_acceptances` (lines 307-322), which omit the
`current_time` argument: the wrapper's default `None` is forwarded. -/
def bankster_get_list_of_payments_current_time : Option Int :=
  service_forwarded_current_time none

/-!
## MiddleMan relay (`middleman/queue_operations.py`)
-/

/-- The `middleman_protocol` exceptions seen by the relay
(`middleman_protocol/exceptions.py` is not under `src/`; the enumeration is
taken from the imports in `queue_operations.py` and from the protocol's
tests). -/
inductive MiddlemanError where
  | frameInvalid
  | brokenEscaping
  | signatureInvalid
  | payloadTypeInvalid
  | requestIdInvalidType
  | payloadInvalid
  | unknown
  deriving DecidableEq, Repr

/-- Embeds the tuple `ERRORS_THAT_CAUSE_CURRENT_ITERATION_ENDS`
(`queue_operations.py`, lines 32-37). -/
def ERRORS_THAT_CAUSE_CURRENT_ITERATION_ENDS (e : MiddlemanError) : Bool :=
  match e with
  | .frameInvalid => true
  | .brokenEscaping => true
  | .signatureInvalid => true
  | .payloadTypeInvalid => true
  | _ => false

/-- The wire error codes of the protocol (spec §4.1). -/
inductive ErrorCode where
  | InvalidFrame
  | InvalidFrameSignature
  | InvalidPayload
  | BrokenEscapingInFrame
  | RequestIdInvalidType
  | Unknown
  deriving DecidableEq, Repr

/-- Modelled from the spec and the protocol's tests:
`middleman_protocol.stream_async.map_exception_to_error_code` is not under
`src/`; its mapping is fixed by
`middleman_protocol/tests/test_stream_async.py` for five of the exceptions,
and the spec's error-code list supplies the code for broken escaping. -/
def map_exception_to_error_code (e : MiddlemanError) : ErrorCode :=
  match e with
  | .frameInvalid => .InvalidFrame
  | .brokenEscaping => .BrokenEscapingInFrame
  | .signatureInvalid => .InvalidFrameSignature
  | .payloadTypeInvalid => .InvalidPayload
  | .requestIdInvalidType => .InvalidFrame
  | .payloadInvalid => .InvalidPayload
  | .unknown => .Unknown

/-- Modelled from the spec:
`middleman_protocol.constants.REQUEST_ID_FOR_RESPONSE_FOR_INVALID_FRAME` is
not under `src/`.  Only its identity matters to the relay claims; its actual
numeric value is irrelevant to every theorem below. -/
def REQUEST_ID_FOR_RESPONSE_FOR_INVALID_FRAME : Nat := 0

/-- A human-readable rendering of an exception, standing for the Python
`str(exception)` used in `create_error_frame`. -/
def middleman_error_text (e : MiddlemanError) : String :=
  match e with
  | .frameInvalid => "FrameInvalidMiddlemanProtocolError"
  | .brokenEscaping => "BrokenEscapingInFrameMiddlemanProtocolError"
  | .signatureInvalid => "SignatureInvalidMiddlemanProtocolError"
  | .payloadTypeInvalid => "PayloadTypeInvalidMiddlemanProtocolError"
  | .requestIdInvalidType => "RequestIdInvalidTypeMiddlemanProtocolError"
  | .payloadInvalid => "PayloadInvalidMiddlemanProtocolError"
  | .unknown => "MiddlemanProtocolError"

/-- An `ErrorFrame` of the protocol: the `(error_code, message)` pair and the
frame's request id. -/
structure ErrorFrame where
  error_code : ErrorCode
  error_message : String
  request_id : Nat
  deriving DecidableEq, Repr

/-- Embeds `queue_operations.create_error_frame` (lines 193-198). -/
def create_error_frame (e : MiddlemanError) : ErrorFrame :=
  { error_code := map_exception_to_error_code e
    error_message := middleman_error_text e
    request_id := REQUEST_ID_FOR_RESPONSE_FOR_INVALID_FRAME }

/-- What a relay queue item can carry: an inner Golem-message payload
(opaque here) or an `ErrorFrame`. -/
inductive RelayMessage where
  | payload (contents : String)
  | errorFrame (frame : ErrorFrame)
  deriving DecidableEq, Repr

/-- `middleman.constants.RequestQueueItem`. -/
structure RequestQueueItem where
  connection_id : Nat
  concent_request_id : Nat
  message : String
  timestamp : Nat
  deriving DecidableEq, Repr

/-- `middleman.constants.ResponseQueueItem`. -/
structure ResponseQueueItem where
  message : RelayMessage
  concent_request_id : Nat
  timestamp : Nat
  deriving DecidableEq, Repr

/-- `middleman.constants.MessageTrackerItem`. -/
structure MessageTrackerItem where
  concent_request_id : Nat
  connection_id : Nat
  message : String
  timestamp : Nat
  deriving DecidableEq, Repr

/-- The insertion-ordered message tracker (a Python `OrderedDict`), embedded
as the list of its key/value pairs in insertion order; keys are unique in any
reachable tracker. -/
abbrev MessageTracker := List (Nat × MessageTrackerItem)

/-- What one `await handle_frame_receive_async(...)` in a producer loop
yields: end of stream, a protocol exception, or a decoded frame
(request id and payload). -/
inductive ReceiveEvent where
  | incompleteRead
  | protocolError (e : MiddlemanError)
  | frame (request_id : Nat) (payload : String)
  deriving DecidableEq, Repr

/-- The action taken by one iteration of `request_producer`
(lines 42-72): terminate the coroutine, enqueue an error onto the
per-connection response queue and continue, enqueue a request item onto the
shared request queue, or let an unhandled exception propagate. -/
inductive RequestProducerStep where
  | terminate
  | enqueueError (item : ResponseQueueItem)
  | enqueueRequest (item : RequestQueueItem)
  | propagate (e : MiddlemanError)
  deriving DecidableEq, Repr

/-- Embeds one iteration of `queue_operations.request_producer` for
connection `connection_id`; `now` is `get_current_utc_timestamp()`. -/
def request_producer_iteration (connection_id : Nat) (now : Nat) :
    ReceiveEvent → RequestProducerStep
  | .incompleteRead => .terminate
  | .protocolError e =>
    if ERRORS_THAT_CAUSE_CURRENT_ITERATION_ENDS e then
      .enqueueError
        { message := .errorFrame (create_error_frame e)
          concent_request_id := REQUEST_ID_FOR_RESPONSE_FOR_INVALID_FRAME
          timestamp := now }
    else
      .propagate e
  | .frame request_id payload =>
    .enqueueRequest
      { connection_id := connection_id
        concent_request_id := request_id
        message := payload
        timestamp := now }

/-- Embeds `queue_operations.discard_entries_for_lost_messages`
(lines 167-190).  The first loop counts the keys that precede
`current_request_id` in insertion order (`List.findIdx` returns the length
when the key is absent, exactly like the loop's counter); if the id was not
found the tracker is returned unchanged (only a warning is logged);
otherwise `popitem(last=False)` is applied `counter` times.  Returns the
resulting tracker together with the popped entries in pop order (oldest
first). -/
def discard_entries_for_lost_messages
    (current_request_id : Nat)
    (message_tracker : MessageTracker) :
    MessageTracker × List (Nat × MessageTrackerItem) :=
  let lost_messages_counter :=
    message_tracker.findIdx (fun e => e.1 == current_request_id)
  if lost_messages_counter = message_tracker.length then
    (message_tracker, [])
  else
    (message_tracker.drop lost_messages_counter,
     message_tracker.take lost_messages_counter)

/-- The action taken by one iteration of `response_producer`
(lines 103-143): terminate, skip the frame (continue with a possibly updated
tracker), or deliver a response item to a connection's queue.  Each
constructor carries the tracker the next iteration starts from. -/
inductive ResponseProducerStep where
  | terminate (message_tracker : MessageTracker)
  | skip (message_tracker : MessageTracker)
  | deliver (connection_id : Nat) (item : ResponseQueueItem)
      (message_tracker : MessageTracker)
  | propagate (e : MiddlemanError) (message_tracker : MessageTracker)
  deriving DecidableEq, Repr

/-- Embeds one iteration of `queue_operations.response_producer`.
`response_queue_pool` is the set of connection ids with a registered
response queue; `now` is `get_current_utc_timestamp()`.  The Python
`del message_tracker[request_id]` is key-based removal, embedded as a filter
(reachable trackers have unique keys). -/
def response_producer_iteration
    (response_queue_pool : List Nat)
    (now : Nat)
    (message_tracker : MessageTracker) :
    ReceiveEvent → ResponseProducerStep
  | .incompleteRead => .terminate message_tracker
  | .protocolError e =>
    if ERRORS_THAT_CAUSE_CURRENT_ITERATION_ENDS e then
      .skip message_tracker
    else
      .propagate e message_tracker
  | .frame request_id payload =>
    match message_tracker.find? (fun e => e.1 == request_id) with
    | none => .skip message_tracker
    | some entry =>
      let current_track := entry.2
      if response_queue_pool.contains current_track.connection_id then
        let after_discard :=
          (discard_entries_for_lost_messages request_id message_tracker).1
        .deliver current_track.connection_id
          { message := .payload payload
            concent_request_id := current_track.concent_request_id
            timestamp := now }
          (after_discard.filter (fun e => decide (e.1 ≠ request_id)))
      else
        .skip (message_tracker.filter (fun e => decide (e.1 ≠ request_id)))

/-- The `DepositClaim` table left behind by a `claim_deposit` run. -/
def ClaimDepositResult.table : ClaimDepositResult → List DepositClaim
  | .success _ _ claims => claims
  | .tooSmallProviderDeposit claims => claims

/-- The `DepositClaim` table left behind by a `finalize_payment` run. -/
def FinalizePaymentResult.table : FinalizePaymentResult → List DepositClaim
  | .paid _ claims => claims
  | .deleted claims => claims
  | .aborted claims => claims

/-- The `DepositClaim` table left behind by a `settle_overdue_acceptances` run. -/
def SettleResult.table : SettleResult → List DepositClaim
  | .settled _ claims => claims
  | .noClaim claims => claims
  | .aborted claims => claims

/-!
## Helper lemmas
-/

theorem sum_of_existing_claims_append (payer : String) (claims : List DepositClaim)
    (c : DepositClaim) :
    sum_of_existing_claims payer (claims ++ [c]) =
      sum_of_existing_claims payer claims +
        (if c.payer_deposit_account = payer then c.amount else 0) := by
  simp only [sum_of_existing_claims, List.filter_append, List.map_append, List.sum_append]
  split
  · simp_all
  · simp_all

theorem filter_ne_id_of_fresh (claims : List DepositClaim) (nid : Nat)
    (h : ∀ c ∈ claims, c.id ≠ nid) :
    claims.filter (fun c => decide (c.id ≠ nid)) = claims :=
  List.filter_eq_self.mpr (fun c hc => by simpa using h c hc)

/-!
## Theorems about the specified claims
-/

/-- C1: if the requestor's oracle-reported deposit is at most the sum of the
amounts of all existing `DepositClaim` rows whose payer is the requestor's
deposit account, `claim_deposit` returns `(None, None)` and inserts no rows;
and a requestor claim is created only when the deposit strictly exceeds that
sum. -/
theorem claim_deposit_requestor_gate
    (settings : BanksterSettings) (subtask_id : String) (uc : ConcentUseCase)
    (req prov : String) (cost rd pd : Int)
    (claims : List DepositClaim) (nid : Nat) :
    (rd ≤ sum_of_existing_claims req claims →
      claim_deposit settings subtask_id uc req prov cost rd pd claims nid =
        ClaimDepositResult.success none none claims) ∧
    (∀ rc pc claims',
      claim_deposit settings subtask_id uc req prov cost rd pd claims nid =
        ClaimDepositResult.success (some rc) pc claims' →
      sum_of_existing_claims req claims < rd) := by
  constructor
  · intro h
    simp [claim_deposit, h]
  · intro rc pc claims' h
    by_contra hlt
    push_neg at hlt
    simp [claim_deposit, hlt] at h

/-- Witness for C1 at the spec's scenario: oracle deposit 100, one existing
claim of amount 100 against the requestor's account, cost 1. -/
theorem claim_deposit_requestor_gate_witness :
    claim_deposit ⟨10, "0xconcent"⟩ "sid-1" ConcentUseCase.FORCED_ACCEPTANCE
      "0xreq" "0xprov" 1 100 500
      [{ id := 1, subtask_id := some "s0", payee_ethereum_address := "0xprov",
         amount := 100, concent_use_case := ConcentUseCase.FORCED_ACCEPTANCE,
         payer_deposit_account := "0xreq", tx_hash := none, closure_time := none }] 2 =
      ClaimDepositResult.success none none
        [{ id := 1, subtask_id := some "s0", payee_ethereum_address := "0xprov",
           amount := 100, concent_use_case := ConcentUseCase.FORCED_ACCEPTANCE,
           payer_deposit_account := "0xreq", tx_hash := none, closure_time := none }] :=
  (claim_deposit_requestor_gate ⟨10, "0xconcent"⟩ "sid-1"
    ConcentUseCase.FORCED_ACCEPTANCE "0xreq" "0xprov" 1 100 500 _ 2).1 (by decide)

/-- C5: `discard_claim` on a claim with null `tx_hash` removes no row and
returns false; on a claim with `tx_hash` set it deletes the claim row and
returns true. -/
theorem discard_claim_tx_hash_gate (deposit_claim : DepositClaim)
    (claims : List DepositClaim) :
    (deposit_claim.tx_hash = none →
      discard_claim deposit_claim claims = (false, claims)) ∧
    (∀ h, deposit_claim.tx_hash = some h →
      discard_claim deposit_claim claims =
        (true, claims.filter (fun c => decide (c.id ≠ deposit_claim.id)))) := by
  constructor
  · intro h
    simp [discard_claim, h]
  · intro hsh h
    simp [discard_claim, h]

/-- Witness for C5: a claim with null `tx_hash` is not removed, and the same
claim with `tx_hash` set is removed from the table. -/
theorem discard_claim_tx_hash_gate_witness :
    discard_claim
      { id := 1, subtask_id := some "s0", payee_ethereum_address := "0xprov",
        amount := 40, concent_use_case := ConcentUseCase.FORCED_ACCEPTANCE,
        payer_deposit_account := "0xreq", tx_hash := none, closure_time := none }
      [{ id := 1, subtask_id := some "s0", payee_ethereum_address := "0xprov",
         amount := 40, concent_use_case := ConcentUseCase.FORCED_ACCEPTANCE,
         payer_deposit_account := "0xreq", tx_hash := none, closure_time := none }] =
      (false,
       [{ id := 1, subtask_id := some "s0", payee_ethereum_address := "0xprov",
          amount := 40, concent_use_case := ConcentUseCase.FORCED_ACCEPTANCE,
          payer_deposit_account := "0xreq", tx_hash := none, closure_time := none }]) ∧
    discard_claim
      { id := 1, subtask_id := some "s0", payee_ethereum_address := "0xprov",
        amount := 40, concent_use_case := ConcentUseCase.FORCED_ACCEPTANCE,
        payer_deposit_account := "0xreq", tx_hash := some "aa", closure_time := none }
      [{ id := 1, subtask_id := some "s0", payee_ethereum_address := "0xprov",
         amount := 40, concent_use_case := ConcentUseCase.FORCED_ACCEPTANCE,
         payer_deposit_account := "0xreq", tx_hash := some "aa", closure_time := none }] =
      (true, []) :=
  ⟨(discard_claim_tx_hash_gate _ _).1 rfl,
   (discard_claim_tx_hash_gate _ _).2 "aa" rfl⟩

/-- C7: in one iteration of `request_producer`, an `IncompleteRead`
terminates the coroutine; each of the four `CURRENT_ITERATION_ENDS` errors
enqueues an ERROR frame carrying
`REQUEST_ID_FOR_RESPONSE_FOR_INVALID_FRAME` onto the per-connection response
queue; any received frame is enqueued as a `RequestQueueItem` carrying the
connection id, the frame's request id and its payload. -/
theorem request_producer_iteration_spec (connection_id now : Nat) :
    (request_producer_iteration connection_id now ReceiveEvent.incompleteRead =
      RequestProducerStep.terminate) ∧
    (∀ e, ERRORS_THAT_CAUSE_CURRENT_ITERATION_ENDS e = true →
      request_producer_iteration connection_id now (ReceiveEvent.protocolError e) =
        RequestProducerStep.enqueueError
          { message := RelayMessage.errorFrame (create_error_frame e)
            concent_request_id := REQUEST_ID_FOR_RESPONSE_FOR_INVALID_FRAME
            timestamp := now } ∧
      (create_error_frame e).request_id = REQUEST_ID_FOR_RESPONSE_FOR_INVALID_FRAME) ∧
    (∀ request_id payload,
      request_producer_iteration connection_id now (ReceiveEvent.frame request_id payload) =
        RequestProducerStep.enqueueRequest
          { connection_id := connection_id
            concent_request_id := request_id
            message := payload
            timestamp := now }) := by
  refine ⟨rfl, ?_, fun _ _ => rfl⟩
  intro e he
  exact ⟨by simp [request_producer_iteration, he], rfl⟩

/-- Witness for C7 at a concrete input: an invalid-signature error on
connection 3 enqueues the ERROR frame with the reserved request id. -/
theorem request_producer_iteration_spec_witness :
    request_producer_iteration 3 1000
        (ReceiveEvent.protocolError MiddlemanError.signatureInvalid) =
      RequestProducerStep.enqueueError
        { message := RelayMessage.errorFrame
            (create_error_frame MiddlemanError.signatureInvalid)
          concent_request_id := REQUEST_ID_FOR_RESPONSE_FOR_INVALID_FRAME
          timestamp := 1000 } ∧
    (create_error_frame MiddlemanError.signatureInvalid).request_id =
      REQUEST_ID_FOR_RESPONSE_FOR_INVALID_FRAME :=
  (request_producer_iteration_spec 3 1000).2.1 MiddlemanError.signatureInvalid rfl

/-- C2: in ADDITIONAL_VERIFICATION with a positive configured
additional-verification cost, if the provider's oracle-reported deposit is at
most the sum of existing claims against the provider plus that cost, then
`claim_deposit` deletes the requestor claim it had just created and fails
with `TooSmallProviderDeposit`, leaving no row created by this call behind.
The hypotheses mirror the code's `assert` preconditions (distinct addresses)
and the database's allocation of a fresh primary key for the inserted row. -/
theorem claim_deposit_provider_underfunded
    (settings : BanksterSettings) (subtask_id : String)
    (req prov : String) (cost rd pd : Int)
    (claims : List DepositClaim) (nid : Nat)
    (havc : 0 < settings.ADDITIONAL_VERIFICATION_COST)
    (hne : req ≠ prov)
    (hfresh : ∀ c ∈ claims, c.id ≠ nid)
    (hreq : sum_of_existing_claims req claims < rd)
    (hprov : pd ≤ sum_of_existing_claims prov claims +
      settings.ADDITIONAL_VERIFICATION_COST) :
    claim_deposit settings subtask_id ConcentUseCase.ADDITIONAL_VERIFICATION
      req prov cost rd pd claims nid =
      ClaimDepositResult.tooSmallProviderDeposit claims := by
  have hgate : ¬ rd ≤ sum_of_existing_claims req claims := not_le.mpr hreq
  simp only [claim_deposit]
  rw [if_neg hgate]
  rw [if_pos (by simp [havc])]
  rw [sum_of_existing_claims_append]
  simp only [hne, if_false, add_zero]
  rw [if_pos hprov]
  rw [List.filter_append, filter_ne_id_of_fresh claims nid hfresh]
  simp

/-- Witness for C2 at the spec's scenario: additional-verification cost 10,
requestor deposit 100 with no existing claims, provider deposit 5. -/
theorem claim_deposit_provider_underfunded_witness :
    claim_deposit ⟨10, "0xconcent"⟩ "sid-1" ConcentUseCase.ADDITIONAL_VERIFICATION
      "0xreq" "0xprov" 1 100 5 [] 1 =
      ClaimDepositResult.tooSmallProviderDeposit [] :=
  claim_deposit_provider_underfunded ⟨10, "0xconcent"⟩ "sid-1" "0xreq" "0xprov"
    1 100 5 [] 1 (by decide) (by decide) (by simp) (by decide) (by decide)

/-- C3: for `finalize_payment` on a claim with null `tx_hash`, with
`available` the oracle deposit balance minus the sum of all other claims
against the same payer: if `available ≤ 0` the claim row is deleted and
`None` is returned; and if `0 < available < claim.amount`, the claim's
amount is set to `available` before the payment transaction is submitted
(the SCI dispatch receives the clamped claim and `available` as its value)
and the normalized transaction hash is stored on the claim. -/
theorem finalize_payment_available_funds
    (oracle : PaymentOracle) (deposit_claim : DepositClaim)
    (subtask : Option SubtaskPaymentInfo) (available_funds : Int)
    (claims : List DepositClaim)
    (htx : deposit_claim.tx_hash = none) :
    (available_funds - sum_of_other_claims deposit_claim claims ≤ 0 →
      finalize_payment oracle deposit_claim subtask available_funds claims =
        FinalizePaymentResult.deleted
          (claims.filter (fun c => decide (c.id ≠ deposit_claim.id)))) ∧
    (∀ available hash,
      available = available_funds - sum_of_other_claims deposit_claim claims →
      0 < available →
      available < deposit_claim.amount →
      finalize_dispatch oracle { deposit_claim with amount := available }
        subtask available = some hash →
      finalize_payment oracle deposit_claim subtask available_funds claims =
        FinalizePaymentResult.paid (adjust_transaction_hash hash)
          (claims.map (fun c =>
            if c.id = deposit_claim.id then
              { deposit_claim with
                  amount := available,
                  tx_hash := some (adjust_transaction_hash hash) }
            else c))) := by
  constructor
  · intro h
    simp only [finalize_payment]
    rw [if_pos h]
  · intro available hash havail hpos hlt hdisp
    subst havail
    simp only [finalize_payment]
    rw [if_neg (not_le.mpr hpos)]
    rw [if_pos hlt]
    rw [hdisp]

/-- Witness for C3 at the spec's scenario: claim amount 50, oracle deposit
40, no other claims; the payment is clamped to 40 and the normalized hash
stored. -/
theorem finalize_payment_available_funds_witness :
    finalize_payment ⟨fun _ => "ab", fun _ => "cd"⟩
      { id := 1, subtask_id := some "s0", payee_ethereum_address := "0xprov",
        amount := 50, concent_use_case := ConcentUseCase.FORCED_ACCEPTANCE,
        payer_deposit_account := "0xreq", tx_hash := none, closure_time := none }
      none 40
      [{ id := 1, subtask_id := some "s0", payee_ethereum_address := "0xprov",
         amount := 50, concent_use_case := ConcentUseCase.FORCED_ACCEPTANCE,
         payer_deposit_account := "0xreq", tx_hash := none, closure_time := none }] =
      FinalizePaymentResult.paid (adjust_transaction_hash "ab")
        [{ id := 1, subtask_id := some "s0", payee_ethereum_address := "0xprov",
           amount := 40, concent_use_case := ConcentUseCase.FORCED_ACCEPTANCE,
           payer_deposit_account := "0xreq",
           tx_hash := some (adjust_transaction_hash "ab"), closure_time := none }] := by
  have h := (finalize_payment_available_funds ⟨fun _ => "ab", fun _ => "cd"⟩
    { id := 1, subtask_id := some "s0", payee_ethereum_address := "0xprov",
      amount := 50, concent_use_case := ConcentUseCase.FORCED_ACCEPTANCE,
      payer_deposit_account := "0xreq", tx_hash := none, closure_time := none }
    none 40
    [{ id := 1, subtask_id := some "s0", payee_ethereum_address := "0xprov",
       amount := 50, concent_use_case := ConcentUseCase.FORCED_ACCEPTANCE,
       payer_deposit_account := "0xreq", tx_hash := none, closure_time := none }]
    rfl).2 40 "ab" (by decide) (by decide) (by decide) rfl
  simpa using h

theorem le_foldl_payment_max (l : List Acceptance) (b : Nat) :
    b ≤ l.foldl (fun m x => Nat.max m x.payment_ts) b := by
  induction l generalizing b with
  | nil => simp
  | cons x xs ih =>
    simp only [List.foldl_cons]
    exact le_trans (Nat.le_max_left _ _) (ih _)

theorem mem_le_foldl_payment_max (l : List Acceptance) (b : Nat) :
    ∀ x ∈ l, x.payment_ts ≤ l.foldl (fun m y => Nat.max m y.payment_ts) b := by
  induction l generalizing b with
  | nil => simp
  | cons a xs ih =>
    intro x hx
    simp only [List.mem_cons] at hx
    rcases hx with rfl | hx
    · exact le_trans (Nat.le_max_right _ _) (le_foldl_payment_max xs _)
    · exact ih _ x hx

theorem foldl_payment_max_mem (l : List Acceptance) (b : Nat) :
    l.foldl (fun m x => Nat.max m x.payment_ts) b = b ∨
      l.foldl (fun m x => Nat.max m x.payment_ts) b ∈
        l.map (fun y => y.payment_ts) := by
  induction l generalizing b with
  | nil => exact Or.inl rfl
  | cons a xs ih =>
    simp only [List.foldl_cons, List.map_cons, List.mem_cons]
    rcases ih (Nat.max b a.payment_ts) with h | h
    · rcases Nat.le_total b a.payment_ts with hb | hb
      · right; left; rw [h]; exact Nat.max_eq_right hb
      · left; rw [h]; exact Nat.max_eq_left hb
    · right; right; exact h

theorem youngest_payment_ts_is_max (a : Acceptance) (rest : List Acceptance) :
    youngest_payment_ts a rest ∈ (a :: rest).map (fun y => y.payment_ts) ∧
      ∀ x ∈ a :: rest, x.payment_ts ≤ youngest_payment_ts a rest := by
  constructor
  · simp only [List.map_cons, List.mem_cons]
    rcases foldl_payment_max_mem rest a.payment_ts with h | h
    · exact Or.inl h
    · exact Or.inr h
  · intro x hx
    simp only [List.mem_cons] at hx
    rcases hx with rfl | hx
    · exact le_foldl_payment_max rest _
    · exact mem_le_foldl_payment_max rest _ x hx

/-- C4: every successful `settle_overdue_acceptances` run returns a
FORCED_PAYMENT claim whose amount is the minimum of (sum of accepted subtask
prices minus the oracle-reported batch and forced payments) and (deposit
minus the sum of existing requestor claims), and whose closure time is the
maximum `payment_ts` among the acceptances; if the deposit is at most the
sum of existing claims, or that minimum is non-positive, `None` is returned
and no claim is created. -/
theorem settle_overdue_acceptances_spec
    (req prov : String) (a : Acceptance) (rest : List Acceptance)
    (rdv : Int) (claims : List DepositClaim)
    (batch forced : List PaymentEvent) (vok : Bool)
    (mk : Int → Nat → String) (nid : Nat) :
    (∀ claim claims',
      settle_overdue_acceptances req prov (a :: rest) rdv claims batch forced
          vok mk nid =
        SettleResult.settled claim claims' →
      claim.concent_use_case = ConcentUseCase.FORCED_PAYMENT ∧
      claim.amount =
        min (sum_subtask_price (a :: rest) - (sum_payments batch + sum_payments forced))
          (rdv - sum_of_existing_claims req claims) ∧
      claim.closure_time = some (youngest_payment_ts a rest) ∧
      youngest_payment_ts a rest ∈ (a :: rest).map (fun y => y.payment_ts) ∧
      (∀ x ∈ a :: rest, x.payment_ts ≤ youngest_payment_ts a rest) ∧
      claims' = claims ++ [claim]) ∧
    (0 ≤ sum_of_existing_claims req claims →
      rdv ≤ sum_of_existing_claims req claims →
      settle_overdue_acceptances req prov (a :: rest) rdv claims batch forced
          vok mk nid = SettleResult.noClaim claims) ∧
    (0 ≤ sum_of_existing_claims req claims →
      vok = true →
      min (sum_subtask_price (a :: rest) - (sum_payments batch + sum_payments forced))
        (rdv - sum_of_existing_claims req claims) ≤ 0 →
      settle_overdue_acceptances req prov (a :: rest) rdv claims batch forced
          vok mk nid = SettleResult.noClaim claims) := by
  refine ⟨?_, ?_, ?_⟩
  · intro claim claims' h
    simp only [settle_overdue_acceptances, get_provider_payment_info,
      not_le, not_lt] at h
    split at h
    · exact absurd h (by simp)
    · split at h
      · exact absurd h (by simp)
      · split at h
        · exact absurd h (by simp)
        · split at h
          · exact absurd h (by simp)
          · rcases h with ⟨rfl, rfl⟩
            refine ⟨rfl, rfl, rfl, ?_⟩
            rcases youngest_payment_ts_is_max a rest with ⟨h1, h2⟩
            exact ⟨h1, h2, rfl⟩
  · intro h0 hle
    simp only [settle_overdue_acceptances]
    rw [if_neg (by simpa using h0), if_pos hle]
  · intro h0 hvok hmin
    subst hvok
    simp only [settle_overdue_acceptances, get_provider_payment_info]
    rw [if_neg (by simpa using h0)]
    by_cases hle : rdv ≤ sum_of_existing_claims req claims
    · rw [if_pos hle]
    · rw [if_neg hle]
      rw [if_pos hmin]
      simp

/-- Witness for C4 at the spec's scenario: two acceptances with payment
timestamps 1000 and 1200 and prices 30 and 40, no reported payments,
requestor deposit 100 and no existing claims: a FORCED_PAYMENT claim of
amount 70 with closure time 1200 is created. -/
theorem settle_overdue_acceptances_spec_witness :
    (⟨5, none, "0xprov", 70, ConcentUseCase.FORCED_PAYMENT, "0xreq",
        some (adjust_transaction_hash "ff"), some 1200⟩ :
      DepositClaim).concent_use_case = ConcentUseCase.FORCED_PAYMENT ∧
    (⟨5, none, "0xprov", 70, ConcentUseCase.FORCED_PAYMENT, "0xreq",
        some (adjust_transaction_hash "ff"), some 1200⟩ :
      DepositClaim).amount =
      min (sum_subtask_price [⟨1000, 30⟩, ⟨1200, 40⟩] -
          (sum_payments [] + sum_payments []))
        (100 - sum_of_existing_claims "0xreq" []) ∧
    (⟨5, none, "0xprov", 70, ConcentUseCase.FORCED_PAYMENT, "0xreq",
        some (adjust_transaction_hash "ff"), some 1200⟩ :
      DepositClaim).closure_time =
      some (youngest_payment_ts ⟨1000, 30⟩ [⟨1200, 40⟩]) ∧
    youngest_payment_ts ⟨1000, 30⟩ [⟨1200, 40⟩] ∈
      ([⟨1000, 30⟩, ⟨1200, 40⟩] : List Acceptance).map (fun y => y.payment_ts) ∧
    (∀ x ∈ ([⟨1000, 30⟩, ⟨1200, 40⟩] : List Acceptance),
      x.payment_ts ≤ youngest_payment_ts ⟨1000, 30⟩ [⟨1200, 40⟩]) ∧
    ([⟨5, none, "0xprov", 70, ConcentUseCase.FORCED_PAYMENT, "0xreq",
        some (adjust_transaction_hash "ff"), some 1200⟩] : List DepositClaim) =
      [] ++ [⟨5, none, "0xprov", 70, ConcentUseCase.FORCED_PAYMENT, "0xreq",
        some (adjust_transaction_hash "ff"), some 1200⟩] :=
  (settle_overdue_acceptances_spec "0xreq" "0xprov" ⟨1000, 30⟩ [⟨1200, 40⟩]
    100 [] [] [] true (fun _ _ => "ff") 5).1
    ⟨5, none, "0xprov", 70, ConcentUseCase.FORCED_PAYMENT, "0xreq",
      some (adjust_transaction_hash "ff"), some 1200⟩
    [⟨5, none, "0xprov", 70, ConcentUseCase.FORCED_PAYMENT, "0xreq",
      some (adjust_transaction_hash "ff"), some 1200⟩]
    (by decide)

theorem tracker_lookup (T : Nat) (item : MessageTrackerItem) :
    ∀ (tracker : MessageTracker) (i : Nat),
      (tracker.map Prod.fst).Nodup → tracker[i]? = some (T, item) →
      tracker.findIdx (fun e => e.1 == T) = i ∧
      tracker.find? (fun e => e.1 == T) = some (T, item) := by
  intro tracker
  induction tracker with
  | nil => intro i _ h; simp at h
  | cons hd tl ih =>
    intro i hnodup hget
    cases i with
    | zero =>
      rw [List.getElem?_cons_zero] at hget
      obtain rfl : hd = (T, item) := Option.some.inj hget
      constructor
      · simp [List.findIdx_cons]
      · exact List.find?_cons_of_pos _ (by simp)
    | succ j =>
      rw [List.getElem?_cons_succ] at hget
      obtain ⟨hlt, hgeteq⟩ := List.getElem?_eq_some.mp hget
      have hmem : (T, item) ∈ tl := hgeteq ▸ List.getElem_mem hlt
      have hTmem : T ∈ tl.map Prod.fst := List.mem_map_of_mem Prod.fst hmem
      simp only [List.map_cons, List.nodup_cons] at hnodup
      have hne : hd.1 ≠ T := fun h => hnodup.1 (h ▸ hTmem)
      have hp : (hd.1 == T) = false := beq_eq_false_iff_ne.mpr hne
      obtain ⟨ih1, ih2⟩ := ih j hnodup.2 hget
      constructor
      · simp [List.findIdx_cons, hp, ih1]
      · rw [List.find?_cons_of_neg _ (by simp [hp]), ih2]

/-- C6: in the response producer, after a matched response for tracker
request id `T` (present at position `i` of the insertion-ordered tracker,
with a live destination connection) is processed, the entries inserted
before `T` are exactly the ones popped (oldest first) by
`discard_entries_for_lost_messages`, the response item is delivered to the
tracked connection, and the resulting tracker is the part strictly after
`T`: no entry inserted before `T` remains, and the entry for `T` itself is
removed. -/
theorem response_producer_lost_message_discard
    (pool : List Nat) (now : Nat) (tracker : MessageTracker)
    (T : Nat) (item : MessageTrackerItem) (i : Nat) (payload : String)
    (hnodup : (tracker.map Prod.fst).Nodup)
    (hget : tracker[i]? = some (T, item))
    (hconn : pool.contains item.connection_id = true) :
    (discard_entries_for_lost_messages T tracker).2 = tracker.take i ∧
    response_producer_iteration pool now tracker (ReceiveEvent.frame T payload) =
      ResponseProducerStep.deliver item.connection_id
        { message := RelayMessage.payload payload
          concent_request_id := item.concent_request_id
          timestamp := now }
        (tracker.drop (i + 1)) ∧
    (∀ e ∈ tracker.take i, e.1 ∉ (tracker.drop (i + 1)).map Prod.fst) ∧
    T ∉ (tracker.drop (i + 1)).map Prod.fst := by
  obtain ⟨hidx, hfind⟩ := tracker_lookup T item tracker i hnodup hget
  obtain ⟨hlt, hgeteq⟩ := List.getElem?_eq_some.mp hget
  have hdrop : tracker.drop i = (T, item) :: tracker.drop (i + 1) := by
    rw [List.drop_eq_getElem_cons hlt, hgeteq]
  have hsplit : tracker.take i ++ (T, item) :: tracker.drop (i + 1) = tracker := by
    rw [← hdrop, List.take_append_drop]
  have hnodup' :
      ((tracker.take i ++ (T, item) :: tracker.drop (i + 1)).map Prod.fst).Nodup := by
    rw [hsplit]; exact hnodup
  rw [List.map_append, List.map_cons, List.nodup_append, List.nodup_cons] at hnodup'
  obtain ⟨_, ⟨hTnotafter, _⟩, hdisj⟩ := hnodup'
  have hdiscard :
      discard_entries_for_lost_messages T tracker =
        (tracker.drop i, tracker.take i) := by
    rw [discard_entries_for_lost_messages, hidx, if_neg (Nat.ne_of_lt hlt)]
  refine ⟨by rw [hdiscard], ?_, ?_, hTnotafter⟩
  · simp only [response_producer_iteration, hfind, hconn, if_true, hdiscard]
    have hfilter :
        (tracker.drop i).filter (fun e => decide (e.1 ≠ T)) =
          tracker.drop (i + 1) := by
      rw [hdrop, List.filter_cons]
      have hhead : decide ((T, item).1 ≠ T) = false := by simp
      rw [hhead]
      simp only [Bool.false_eq_true, if_false]
      refine List.filter_eq_self.mpr ?_
      intro e he
      have hmem : e.1 ∈ (tracker.drop (i + 1)).map Prod.fst :=
        List.mem_map_of_mem Prod.fst he
      simp only [decide_eq_true_eq]
      intro hEq
      exact hTnotafter (by simpa [hEq] using hmem)
    rw [hfilter]
  · intro e he
    have : e.1 ∈ (tracker.take i).map Prod.fst := List.mem_map_of_mem Prod.fst he
    intro hin
    exact hdisj this (List.mem_cons_of_mem _ hin)

/-- Witness for C6 at the spec's scenario: tracker holds ids 7 then 8, the
Signing Service answers 8 first; entry 7 is dropped, the response is
delivered to the tracked connection, and the tracker is left empty. -/
theorem response_producer_lost_message_discard_witness :
    (discard_entries_for_lost_messages 8
        [(7, ⟨70, 4, "m7", 10⟩), (8, ⟨80, 5, "m8", 11⟩)]).2 =
      ([(7, ⟨70, 4, "m7", 10⟩), (8, ⟨80, 5, "m8", 11⟩)] : MessageTracker).take 1 ∧
    response_producer_iteration [5] 777
        [(7, ⟨70, 4, "m7", 10⟩), (8, ⟨80, 5, "m8", 11⟩)]
        (ReceiveEvent.frame 8 "resp") =
      ResponseProducerStep.deliver 5
        { message := RelayMessage.payload "resp"
          concent_request_id := 80
          timestamp := 777 }
        (([(7, ⟨70, 4, "m7", 10⟩), (8, ⟨80, 5, "m8", 11⟩)] : MessageTracker).drop 2) ∧
    (∀ e ∈ ([(7, ⟨70, 4, "m7", 10⟩), (8, ⟨80, 5, "m8", 11⟩)] : MessageTracker).take 1,
      e.1 ∉ (([(7, ⟨70, 4, "m7", 10⟩), (8, ⟨80, 5, "m8", 11⟩)] :
        MessageTracker).drop 2).map Prod.fst) ∧
    8 ∉ (([(7, ⟨70, 4, "m7", 10⟩), (8, ⟨80, 5, "m8", 11⟩)] :
      MessageTracker).drop 2).map Prod.fst :=
  response_producer_lost_message_discard [5] 777
    [(7, ⟨70, 4, "m7", 10⟩), (8, ⟨80, 5, "m8", 11⟩)] 8 ⟨80, 5, "m8", 11⟩ 1 "resp"
    (by decide) (by decide) (by decide)

/-- C8 (divergence): `sci_backend.make_force_payment_to_provider` issues the
`force_payment` RPC call but has no `return` statement, so it returns
`None`, not a transaction hash — here evaluated at a concrete successful
settlement input (balance 100, value 70, closure time 1200): the RPC call is
made with the expected arguments, yet the function's return value is
`none`. -/
theorem make_force_payment_to_provider_returns_no_hash :
    (make_force_payment_to_provider 100 "0xreq" "0xprov" 70 1200).2 = none ∧
    (make_force_payment_to_provider 100 "0xreq" "0xprov" 70 1200).1 =
      { requestor_address := "0xreq", provider_address := "0xprov",
        value := 70, closure_time := 1200 } := by
  constructor
  · rfl
  · rfl

/-- C9 (divergence): the `service.get_list_of_payments` wrapper forwards its
`current_time` parameter unchanged, and `settle_overdue_acceptances` omits
it, so the backend receives `None`; the backend's assertion
`isinstance(current_time, int) and current_time > 0` is therefore false on
that call — the assertion branch is reached, not unreachable. -/
theorem settle_current_time_assertion_fails :
    bankster_get_list_of_payments_current_time = none ∧
    sci_backend_current_time_assertion bankster_get_list_of_payments_current_time =
      false := by
  constructor
  · rfl
  · rfl

/-- C10: every `DepositClaim` row written by a Bankster operation has a
strictly positive amount.  Starting from a table whose rows are all
positive, any table produced by `claim_deposit` (which the code enters only
with `subtask_cost > 0`, its `assert`), by `finalize_payment` (on a claim
row of the table, hence positive), or by `settle_overdue_acceptances`
contains only rows with strictly positive amounts: the requestor claim gets
`subtask_cost`, a provider claim is created only when the configured cost is
positive, `finalize_payment` clamps only to a strictly positive value and
deletes the claim otherwise, and the settlement creates a claim only when
the payable amount is strictly positive. -/
theorem bankster_written_claims_positive
    (settings : BanksterSettings) (subtask_id : String) (uc : ConcentUseCase)
    (req prov : String) (cost rd pd : Int)
    (claims : List DepositClaim) (nid : Nat)
    (oracle : PaymentOracle) (deposit_claim : DepositClaim)
    (subtask : Option SubtaskPaymentInfo) (available_funds : Int)
    (acceptances : List Acceptance) (rdv : Int)
    (batch forced : List PaymentEvent) (vok : Bool) (mk : Int → Nat → String)
    (hpos : ∀ c ∈ claims, 0 < c.amount)
    (hcost : 0 < cost)
    (hdpos : 0 < deposit_claim.amount) :
    (∀ c ∈ (claim_deposit settings subtask_id uc req prov cost rd pd
        claims nid).table, 0 < c.amount) ∧
    (∀ c ∈ (finalize_payment oracle deposit_claim subtask available_funds
        claims).table, 0 < c.amount) ∧
    (∀ c ∈ (settle_overdue_acceptances req prov acceptances rdv claims batch
        forced vok mk nid).table, 0 < c.amount) := by
  refine ⟨?_, ?_, ?_⟩
  · simp only [claim_deposit]
    split
    · simpa [ClaimDepositResult.table] using hpos
    · split
      · rename_i hprovclaim
        split
        · simp only [ClaimDepositResult.table]
          intro c hc
          have hc' := (List.mem_filter.mp hc).1
          rcases List.mem_append.mp hc' with h | h
          · exact hpos c h
          · simp only [List.mem_singleton] at h
            subst h
            exact hcost
        · have havc : 0 < settings.ADDITIONAL_VERIFICATION_COST := by
            simp only [Bool.and_eq_true, decide_eq_true_eq] at hprovclaim
            exact hprovclaim.2
          simp only [ClaimDepositResult.table]
          intro c hc
          rcases List.mem_append.mp hc with h | h
          · rcases List.mem_append.mp h with h' | h'
            · exact hpos c h'
            · simp only [List.mem_singleton] at h'
              subst h'
              exact hcost
          · simp only [List.mem_singleton] at h
            subst h
            exact havc
      · simp only [ClaimDepositResult.table]
        intro c hc
        rcases List.mem_append.mp hc with h | h
        · exact hpos c h
        · simp only [List.mem_singleton] at h
          subst h
          exact hcost
  · simp only [finalize_payment]
    split
    · simp only [FinalizePaymentResult.table]
      intro c hc
      exact hpos c (List.mem_filter.mp hc).1
    · rename_i havail
      have hav : 0 < available_funds - sum_of_other_claims deposit_claim claims :=
        lt_of_not_le havail
      split
      · simpa [FinalizePaymentResult.table] using hpos
      · simp only [FinalizePaymentResult.table]
        intro c hc
        obtain ⟨a, ha, hca⟩ := List.mem_map.mp hc
        by_cases hid : a.id = deposit_claim.id
        · rw [if_pos hid] at hca
          subst hca
          simp only
          split
          · exact hav
          · exact hdpos
        · rw [if_neg hid] at hca
          subst hca
          exact hpos a ha
  · simp only [settle_overdue_acceptances]
    split
    · simpa [SettleResult.table] using hpos
    · split
      · simpa [SettleResult.table] using hpos
      · split
        · simpa [SettleResult.table] using hpos
        · split
          · simpa [SettleResult.table] using hpos
          · split
            · simpa [SettleResult.table] using hpos
            · rename_i hpay
              simp only [SettleResult.table]
              intro c hc
              rcases List.mem_append.mp hc with h | h
              · exact hpos c h
              · simp only [List.mem_singleton] at h
                subst h
                exact lt_of_not_le hpay

/-- Witness for C10 at concrete inputs: empty initial table, cost 1, a
positive claim being finalized. -/
theorem bankster_written_claims_positive_witness :
    (∀ c ∈ (claim_deposit ⟨10, "0xc"⟩ "sid-1" ConcentUseCase.FORCED_ACCEPTANCE
        "0xreq" "0xprov" 1 100 5 [] 1).table, 0 < c.amount) ∧
    (∀ c ∈ (finalize_payment ⟨fun _ => "h", fun _ => "h"⟩
        ⟨1, some "s0", "0xprov", 1, ConcentUseCase.FORCED_ACCEPTANCE, "0xreq",
          none, none⟩ none 0 []).table, 0 < c.amount) ∧
    (∀ c ∈ (settle_overdue_acceptances "0xreq" "0xprov" [] 0 [] [] [] false
        (fun _ _ => "h") 1).table, 0 < c.amount) :=
  bankster_written_claims_positive ⟨10, "0xc"⟩ "sid-1"
    ConcentUseCase.FORCED_ACCEPTANCE "0xreq" "0xprov" 1 100 5 [] 1
    ⟨fun _ => "h", fun _ => "h"⟩
    ⟨1, some "s0", "0xprov", 1, ConcentUseCase.FORCED_ACCEPTANCE, "0xreq",
      none, none⟩ none 0 [] 0 [] [] false (fun _ _ => "h")
    (by simp) (by decide) (by decide)
